import Mathlib

namespace Musicn

/-- One string occurs inside another, viewed as character lists. -/
def strContains (hay needle : String) : Prop :=
  needle.data <:+: hay.data


/-- JS `Array.prototype.join(sep)`: empty list gives the empty string,
otherwise elements interleaved with the separator. -/
def joinSep (sep : String) : List String → String
  | [] => ""
  | [a] => a
  | a :: b :: rest => a ++ sep ++ joinSep sep (b :: rest)


/-! ## A model of the JavaScript values the downloader manipulates -/
/-- Untyped JavaScript values as they appear in the downloader: `null`
(also standing for `undefined`), booleans, integers, strings, arrays and
plain objects (ordered field lists). -/
inductive JSValue where
  | null
  | bool (b : Bool)
  | num (n : Int)
  | str (s : String)
  | arr (items : List JSValue)
  | obj (fields : List (String × JSValue))


/-- JS truthiness: `null`/`undefined`, `false`, `0` and `""` are falsy;
arrays and objects are always truthy. -/
def jsTruthy : JSValue → Bool
  | .null => false
  | .bool b => b
  | .num n => n != 0
  | .str s => s != ""
  | .arr _ => true
  | .obj _ => true


/-- Property access `v.k`: for objects, the first binding of `k`
(`undefined`, modelled `null`, when absent); anything else gives
`undefined`. -/
def jsField (v : JSValue) (k : String) : JSValue :=
  match v with
  | .obj fields => (fields.lookup k).getD .null
  | _ => .null


/-- Strict equality `v === s` against a string literal. -/
def jsStrictEqStr (v : JSValue) (s : String) : Bool :=
  match v with
  | .str t => t == s
  | _ => false


/-- JS `a || b`. -/
def jsOr (a b : JSValue) : JSValue :=
  if jsTruthy a then a else b


/-- JS `String(v)` conversion, modelled for the primitive values the
downloader converts (format codes and error codes are strings or
numbers); arrays render as their comma-joined elements with `null`
elements rendered empty, objects as the generic object tag. -/
def jsToString : JSValue → String
  | .null => "null"
  | .bool b => if b then "true" else "false"
  | .num n => toString n
  | .str s => s
  | .arr items => joinSep "," (items.map fun v =>
      match v with
      | .null => ""
      | .bool b => if b then "true" else "false"
      | .num n => toString n
      | .str s => s
      | .arr _ => ""
      | .obj _ => "[object Object]")
  | .obj _ => "[object Object]"


/-- Truthiness of an optional string the way JS tests a possibly-absent
header or field: absent or empty is falsy. -/
def optTruthy : Option String → Bool
  | none => false
  | some s => s != ""


/-! ## Quality Catalog (`mapQualityToFormatCode`, downloader.js lines 18-59)

`JSON.parse` is an external library call; the embedding takes the
decoder as a parameter `jsonParse`, `none` standing for a thrown
`SyntaxError`. -/
/-- The `androidFormat || iosFormat || format` priority chain applied to
one catalog entry, followed by the truthiness check and `String(...)`
conversion of the source. -/
def entryFormatCode (entry : JSValue) : Option String :=
  let formatCode := jsOr (jsField entry "androidFormat")
    (jsOr (jsField entry "iosFormat") (jsField entry "format"))
  if jsTruthy formatCode then some (jsToString formatCode) else none


/-- Model of `mapQualityToFormatCode(qualityLabel, rawFormat)`: maps a quality
label (SQ/HQ/PQ/LQ) to the provider format code found in the stored
`rawFormat` payload, `none` when no code is found. -/
def mapQualityToFormatCode (jsonParse : String → Option JSValue)
    (qualityLabel : String) (rawFormat : JSValue) : Option String :=
  if ¬ jsTruthy rawFormat then none
  else
    let formatData? : Option JSValue :=
      match rawFormat with
      | .str s => jsonParse s
      | v => some v
    match formatData? with
    | none => none
    | some formatData =>
      match formatData with
      | .arr items =>
        match items.find? (fun item =>
            jsTruthy item && jsStrictEqStr (jsField item "formatType") qualityLabel) with
        | some entry => entryFormatCode entry
        | none => none
      | .obj fields =>
        if jsStrictEqStr (jsField (.obj fields) "formatType") qualityLabel then
          entryFormatCode (.obj fields)
        else none
      | _ => none


/-- Result record of `mapQualityWithFallback`. -/
structure MappingResult where
  formatCode : Option String
  actualQuality : Option String
  mappingLog : List String
deriving DecidableEq, Repr


/-- The degradation loop of `mapQualityWithFallback` (lines 86-101):
walk the degrade order, skipping the preferred label, accumulating the
mapping log. -/
def degradeLoop (jsonParse : String → Option JSValue) (qualityLabel : String)
    (rawFormat : JSValue) (log : List String) : List String → MappingResult
  | [] => ⟨none, none, log⟩
  | q :: rest =>
    if q = qualityLabel then
      degradeLoop jsonParse qualityLabel rawFormat log rest
    else
      match mapQualityToFormatCode jsonParse q rawFormat with
      | some code =>
        ⟨some code, some q, log ++ [q ++ " → " ++ code ++ " (degraded)"]⟩
      | none =>
        degradeLoop jsonParse qualityLabel rawFormat
          (log ++ [q ++ " → not found"]) rest


/-- Model of `mapQualityWithFallback(qualityLabel, rawFormat, degradeOrder)`
(lines 69-108): try the preferred label, then each label of the degrade
order that differs from it. -/
def mapQualityWithFallback (jsonParse : String → Option JSValue)
    (qualityLabel : String) (rawFormat : JSValue)
    (degradeOrder : List String) : MappingResult :=
  match mapQualityToFormatCode jsonParse qualityLabel rawFormat with
  | some preferredCode =>
    ⟨some preferredCode, some qualityLabel,
      [qualityLabel ++ " → " ++ preferredCode ++ " (preferred)"]⟩
  | none =>
    degradeLoop jsonParse qualityLabel rawFormat
      [qualityLabel ++ " → not found in rawFormat"] degradeOrder


/-! ## Quality mapping phase of `resolveMiguUrl` (lines 135-161) and the
degradation loop of the orchestrator (`processDownloadTask`, lines 666-710) -/
/-- Outcome of the mapping phase at the top of `resolveMiguUrl`:
the `toneFlag` actually sent upstream, whether a `toneFlag_mapping`
warning entry was pushed onto the attempt list, and the mapping log. -/
structure ToneMappingPhase where
  actualToneFlag : String
  warningRecorded : Bool
  mappingLog : List String
deriving DecidableEq, Repr


/-- Lines 135-161 of `resolveMiguUrl`: map the quality label through the
catalog (with an empty degrade order); on failure or a missing
`rawFormat`, keep the quality label itself as the code and record a
`toneFlag_mapping` warning. -/
def toneMappingPhase (jsonParse : String → Option JSValue)
    (toneFlag : String) (rawFormat : JSValue) : ToneMappingPhase :=
  if jsTruthy rawFormat then
    let mapping := mapQualityWithFallback jsonParse toneFlag rawFormat []
    match mapping.formatCode with
    | some c => ⟨c, false, mapping.mappingLog⟩
    | none => ⟨toneFlag, true, mapping.mappingLog⟩
  else
    ⟨toneFlag, true, []⟩


/-- The degradation loop of `processDownloadTask` (lines 693-709): walk
the degrade order, skipping labels already tried, stopping after the
first label whose resolution succeeds; returns the labels attempted by
the loop in order. `fails q = true` means resolution of label `q`
returns no final URL. -/
def degradeAttemptLoop (fails : String → Bool) (tried : List String) :
    List String → List String
  | [] => []
  | q :: rest =>
    if q ∈ tried then degradeAttemptLoop fails tried rest
    else if fails q then q :: degradeAttemptLoop fails (q :: tried) rest
    else [q]


/-- The full list of quality labels attempted (and recorded in
`triedFlags`) by one resolution run of `processDownloadTask`: the
preferred label, then — only if it failed and degradation is allowed —
the degradation loop over the degrade order. -/
def attemptedLabels (fails : String → Bool) (preferred : String)
    (allowDegrade : Bool) (degradeOrder : List String) : List String :=
  if fails preferred && allowDegrade then
    preferred :: degradeAttemptLoop fails [preferred] degradeOrder
  else
    [preferred]


/-- One quality trial as executed by `resolveMiguUrl` for a label: the
label, the format code actually sent upstream, and whether that code is
the fallback (the label itself, with a warning recorded) rather than a
catalog code. -/
structure QualityTrial where
  label : String
  code : String
  usedFallback : Bool
deriving DecidableEq, Repr


/-- The trial executed for one attempted label. -/
def miguTrial (jsonParse : String → Option JSValue) (rawFormat : JSValue)
    (label : String) : QualityTrial :=
  let ph := toneMappingPhase jsonParse label rawFormat
  ⟨label, ph.actualToneFlag, ph.warningRecorded⟩


/-- The sequence of quality trials issued by one resolution run. -/
def trialSequence (jsonParse : String → Option JSValue) (rawFormat : JSValue)
    (fails : String → Bool) (preferred : String) (allowDegrade : Bool)
    (degradeOrder : List String) : List QualityTrial :=
  (attemptedLabels fails preferred allowDegrade degradeOrder).map
    (miguTrial jsonParse rawFormat)


/-- The catalog lookup for a single label (no degradation). -/
def catalogCode (jsonParse : String → Option JSValue) (rawFormat : JSValue)
    (q : String) : Option String :=
  mapQualityToFormatCode jsonParse q rawFormat


/-- Claim C1 as stated: if any label among the preferred one and the
degrade order resolves to a catalog code, every trial of the run uses a
catalog code (labels without one are skipped); otherwise the run is a
single fallback trial on the preferred label. -/
def trialSequenceSkipsUnresolved (jsonParse : String → Option JSValue)
    (rawFormat : JSValue) (fails : String → Bool) (preferred : String)
    (allowDegrade : Bool) (degradeOrder : List String) : Bool :=
  let seq := trialSequence jsonParse rawFormat fails preferred allowDegrade degradeOrder
  if (preferred :: degradeOrder).any
      (fun q => (catalogCode jsonParse rawFormat q).isSome) then
    seq.all (fun t =>
      catalogCode jsonParse rawFormat t.label == some t.code && !t.usedFallback)
  else
    seq == [⟨preferred, preferred, true⟩]


/-! ## Extension inference (`inferExtension`, downloader.js lines 459-501) -/
/-- Modelled from the spec: `getExtension` is defined in
`src/utils/fileUtils.js`, which is missing from the source snapshot
(only its import and the repository tests reference it). Per §4.4 and
the tests, it extracts the extension of the path component of a URL or
filename — query string and fragment ignored, extension of the last
path segment as by node `path.extname` — returning the supplied default
(`null` at both call sites in `inferExtension`, modelled `none`) when
the path carries none. -/
def getExtension (url : String) : Option String :=
  let path := url.data.takeWhile (fun c => c != '?' && c != '#')
  let base := (path.reverse.takeWhile (fun c => c != '/')).reverse
  let revBase := base.reverse
  let revExt := revBase.takeWhile (fun c => c != '.')
  if revExt.length = revBase.length then none
  else if revExt.length = revBase.length - 1 then none
  else some (String.mk ('.' :: revExt.reverse))


/-- Model of the replace call of line 471: drop every single and double
quote character. -/
def stripQuotes (s : String) : String :=
  String.mk (s.data.filter (fun c => c != '\'' && c != '"'))


/-- Unquoted alternative of the filename pattern: the longest run of
characters other than a semicolon or newline. -/
def dispositionAlt2 (tail : List Char) : List Char :=
  tail.takeWhile (fun c => c != ';' && c != '\n')


/-- Lazy scan for the closing quote (a dot in the pattern does not match
a newline): the characters before the first closing quote, or `none`
when the quote never closes. -/
def findClose (q : Char) : List Char → Option (List Char)
  | [] => none
  | c :: rest =>
    if c = q then some []
    else if c = '\n' then none
    else (findClose q rest).map (c :: ·)


/-- Group 1 of the filename pattern starting right after the equals
sign: a quoted token (quotes included in the group) when a quote opens
and closes, otherwise the unquoted alternative. -/
def dispositionGroup (tail : List Char) : List Char :=
  match tail with
  | [] => []
  | q :: t2 =>
    if q = '\'' || q = '"' then
      match findClose q t2 with
      | some middle => q :: (middle ++ [q])
      | none => dispositionAlt2 (q :: t2)
    else dispositionAlt2 (q :: t2)


/-- Attempt the filename pattern at the head of the character list:
literal `filename`, a run of characters other than semicolon, equals
sign or newline, an equals sign, then group 1. -/
def dispositionMatchAt (l : List Char) : Option (List Char) :=
  if "filename".data.isPrefixOf l then
    let after := l.drop 8
    let run := after.takeWhile (fun c => c != ';' && c != '=' && c != '\n')
    match after.drop run.length with
    | '=' :: tail => some (dispositionGroup tail)
    | _ => none
  else none


/-- Leftmost match of the filename pattern over the whole header
value. -/
def dispositionSearch : List Char → Option (List Char)
  | [] => none
  | c :: rest =>
    match dispositionMatchAt (c :: rest) with
    | some g => some g
    | none => dispositionSearch rest


/-- Group 1 of the first match of the content-disposition filename
pattern of line 469, `none` when the pattern does not match. -/
def dispositionFilenameGroup (disposition : String) : Option String :=
  (dispositionSearch disposition.data).map String.mk


/-- The response headers `inferExtension` consults. -/
structure Headers where
  contentDisposition : Option String
  contentType : Option String


/-- The fixed content-type table of lines 482-490, in source order. -/
def extTypeMap : List (String × String) :=
  [("audio/mpeg", ".mp3"), ("audio/mp3", ".mp3"), ("audio/flac", ".flac"),
   ("audio/x-flac", ".flac"), ("audio/mp4", ".m4a"), ("audio/m4a", ".m4a"),
   ("audio/x-m4a", ".m4a")]


/-- JS `hay.includes(needle)` as a boolean. -/
def strContainsB (hay needle : String) : Bool :=
  decide (needle.data <:+: hay.data)


/-- Extension from the content-disposition stage of `inferExtension`
(lines 467-477): filename match, quote stripping, informative-extension
check. -/
def dispositionExtension (headers : Headers) : Option String :=
  match headers.contentDisposition with
  | none => none
  | some d =>
    if d = "" then none
    else
      match dispositionFilenameGroup d with
      | none => none
      | some g =>
        if g = "" then none
        else
          match getExtension (stripQuotes g) with
          | some e => if e ≠ ".do" then some e else none
          | none => none


/-- Extension from the content-type stage of `inferExtension`
(lines 480-497): first table entry whose key occurs in the header. -/
def contentTypeExtension (headers : Headers) : Option String :=
  match headers.contentType with
  | none => none
  | some ct =>
    if ct = "" then none
    else (extTypeMap.find? (fun p => strContainsB ct p.1)).map Prod.snd


/-- Model of `inferExtension(url, headers)` (lines 459-501). -/
def inferExtension (url : String) (headers : Headers) : String :=
  match getExtension url with
  | some e =>
    if e ≠ ".do" then e
    else
      ((dispositionExtension headers).orElse
        (fun _ => contentTypeExtension headers)).getD ".mp3"
  | none =>
    ((dispositionExtension headers).orElse
      (fun _ => contentTypeExtension headers)).getD ".mp3"


/-! ## URL resolution (`resolveDownloadUrl`, downloader.js lines 301-451)

Network I/O is embedded as an environment supplying the responses of
the four requests the function can make; a transport error is the
`Except.error` case carrying the thrown message. -/
/-- The parts of an HTTP response the resolver inspects. -/
structure HttpResponse where
  statusCode : Nat
  location : Option String
  contentType : Option String
deriving DecidableEq, Repr


/-- Responses of the up-to-four upstream requests of one
`resolveDownloadUrl` call: the header-only probe, the error-body GET
(status ≥ 400 with a JSON content type), the JSON-body GET (status 200
with a JSON content type) and the fallback GET with redirects
disabled. -/
structure ResolveEnv where
  headResp : Except String HttpResponse
  errorBody : Except String JSValue
  jsonBody : Except String JSValue
  getResp : Except String HttpResponse


/-- Outcome of `resolveDownloadUrl`: a resolved final URL, or the
structured JSON-error return of lines 360-369. Thrown errors are the
`Except.error` case of the surrounding `Except`. -/
inductive ResolveOutcome where
  | success (finalUrl : String) (contentType : Option String)
  | apiError (statusCode : Nat) (contentType message code toneFlag : String)
deriving DecidableEq, Repr


/-- The redirect status class of lines 326 and 432. -/
def redirectCodes : List Nat := [301, 302, 303, 307, 308]


/-- URLSearchParams.set on the query string of a URL: replace the value
of the first pair with the given key, drop later pairs with the same
key, append when absent. -/
def setPairs (key value : String) : List String → List String
  | [] => [key ++ "=" ++ value]
  | p :: rest =>
    if String.mk (p.data.takeWhile (fun c => c != '=')) = key then
      (key ++ "=" ++ value) ::
        rest.filter (fun p2 =>
          !(String.mk (p2.data.takeWhile (fun c => c != '=')) == key))
    else p :: setPairs key value rest


/-- Lines 307-309: rewrite the `toneFlag` query parameter of a URL. -/
def setQueryParam (url key value : String) : String :=
  let chars := url.data
  let base := chars.takeWhile (fun c => c != '?')
  if base.length = chars.length then
    String.mk base ++ "?" ++ key ++ "=" ++ value
  else
    let query := String.mk (chars.drop (base.length + 1))
    String.mk base ++ "?" ++ joinSep "&" (setPairs key value (query.splitOn "&"))


/-- First truthy field of a JSON body over an ordered field-name list
(lines 396-406 and 225-228). -/
def firstTruthyField (data : JSValue) : List String → Option JSValue
  | [] => none
  | f :: rest =>
    if jsTruthy (jsField data f) then some (jsField data f)
    else firstTruthyField data rest


/-- Body of the `try` block of `resolveDownloadUrl` (lines 302-443). -/
def resolveDownloadUrlInner (env : ResolveEnv) (url toneFlag : String) :
    Except String ResolveOutcome :=
  let resolveUrl :=
    if strContainsB url "listenSong.do" then setQueryParam url "toneFlag" toneFlag
    else url
  match env.headResp with
  | .error e => .error e
  | .ok response =>
    if redirectCodes.contains response.statusCode && optTruthy response.location then
      .ok (.success (response.location.getD "") none)
    else if 400 ≤ response.statusCode then
      let contentType := response.contentType.getD ""
      let genericError : Except String ResolveOutcome :=
        .error ("HTTP " ++ toString response.statusCode ++ " " ++
          (if contentType ≠ "" then "(" ++ contentType ++ ")" else "") ++
          " for toneFlag=" ++ toneFlag)
      if strContainsB contentType "application/json" then
        match env.errorBody with
        | .ok errorData =>
          let errorMsg := jsToString (jsOr (jsField errorData "message")
            (jsOr (jsField errorData "msg")
              (jsOr (jsField errorData "info") (.str "Unknown error"))))
          let errorCode := jsToString (jsOr (jsField errorData "code")
            (jsOr (jsField errorData "errorCode") (.num response.statusCode)))
          .ok (.apiError response.statusCode contentType errorMsg errorCode toneFlag)
        | .error _ => genericError
      else genericError
    else if response.statusCode = 200 && optTruthy response.contentType &&
        strContainsB (response.contentType.getD "") "application/json" then
      match env.jsonBody with
      | .ok data =>
        match firstTruthyField data
            ["url", "playUrl", "downloadUrl", "mp3Url", "listenUrl"] with
        | some v => .ok (.success (jsToString v) none)
        | none => .error "JSON response does not contain a recognizable download URL field"
      | .error e => .error e
    else if response.statusCode = 200 && optTruthy response.contentType &&
        (strContainsB (response.contentType.getD "") "audio/" ||
         strContainsB (response.contentType.getD "") "application/octet-stream") then
      .ok (.success resolveUrl response.contentType)
    else
      match env.getResp with
      | .error e => .error e
      | .ok getResponse =>
        if redirectCodes.contains getResponse.statusCode &&
            optTruthy getResponse.location then
          .ok (.success (getResponse.location.getD "") none)
        else
          .error ("Unable to resolve final download URL. Status: " ++
            toString response.statusCode ++ ", Content-Type: " ++
            response.contentType.getD "undefined")


/-- Model of `resolveDownloadUrl(url, toneFlag)` with the catch block of lines
445-450 wrapping thrown messages. -/
def resolveDownloadUrl (env : ResolveEnv) (url toneFlag : String) :
    Except String ResolveOutcome :=
  match resolveDownloadUrlInner env url toneFlag with
  | .ok r => .ok r
  | .error msg =>
    if strContainsB msg "Unable to resolve" then .error msg
    else .error ("Failed to resolve download URL: " ++ msg)


/-! ## Strategy B: `resourceinfo.do` lookup (`resolveMiguUrl`, lines 192-278) -/
/-- One recorded failed attempt, with the fields the error-message
renderer of `processDownloadTask` reads. `code` is stored already
converted to a string, `none` standing for an absent or falsy value
(which the renderer skips either way). -/
structure Attempt where
  api : String
  mappedToneFlag : Option String
  statusCode : Option Nat
  contentTypeF : Option String
  code : Option String
  message : Option String
  note : Option String
  mappingLog : Option (List String)
deriving DecidableEq, Repr


/-- First occurrence split: the part before the first occurrence of
`sep` and the part after it, `none` when `sep` does not occur. -/
def breakOnSub (sep : List Char) : List Char → Option (List Char × List Char)
  | [] => if sep.isEmpty then some ([], []) else none
  | c :: rest =>
    if sep.isPrefixOf (c :: rest) then some ([], (c :: rest).drop sep.length)
    else (breakOnSub sep rest).map (fun p => (c :: p.1, p.2))


/-- JS `new URL(s).pathname`, modelled for absolute URLs: the part of
the string from the first slash after the `://` separator up to the
query or fragment, `/` when the authority has no path, and `none` (a
thrown TypeError) when `://` is absent. -/
def urlPathname (s : String) : Option String :=
  match breakOnSub "://".data s.data with
  | none => none
  | some (_, after) =>
    let path := after.dropWhile (fun c => c != '/')
    if path.isEmpty then some "/"
    else some (String.mk (path.takeWhile (fun c => c != '?' && c != '#')))


/-- The canonical direct-download host of line 235. -/
def miguHost : String := "https://freetyst.nf.migu.cn"


/-- The ordered URL-bearing field names of line 225. -/
def resourceUrlFields : List String :=
  ["audioUrl", "url", "playUrl", "listenUrl", "downloadUrl"]


/-- The attempt label for one resource type. -/
def riApi (rt : Nat) : String := "resourceinfo.do?resourceType=" ++ toString rt


/-- Environment of Strategy B: the `resourceinfo.do` response body per
resource type (`Except.error` for a transport failure), and the status
and content type answered by the verification HEAD request per URL. -/
structure StrategyBEnv where
  resourceInfo : Nat → Except String JSValue
  headStatus : String → Nat
  headContentType : String → Option String


/-- The field loop of lines 227-258: for each truthy URL field of the
resource record, re-host its path under the canonical host and keep it
if the verification HEAD answers 200; parse or verification failures
fall through to the next field. -/
def scanUrlFields (env : StrategyBEnv) (resource : JSValue) :
    List String → Option (String × Option String)
  | [] => none
  | f :: rest =>
    if jsTruthy (jsField resource f) then
      match urlPathname (jsToString (jsField resource f)) with
      | some pathname =>
        let directUrl := miguHost ++ pathname
        if env.headStatus directUrl = 200 then
          some (directUrl, env.headContentType directUrl)
        else scanUrlFields env resource rest
      | none => scanUrlFields env resource rest
    else scanUrlFields env resource rest


/-- One `resourceinfo.do` attempt (lines 196-277) for one resource
type: success with the verified URL, or the single recorded failed
attempt. -/
def strategyBStep (env : StrategyBEnv) (rt : Nat) :
    Except Attempt (String × Option String) :=
  match env.resourceInfo rt with
  | .error e => .error ⟨riApi rt, none, none, none, none, some e, none, none⟩
  | .ok data =>
    if ¬ jsStrictEqStr (jsField data "code") "000000" then
      .error ⟨riApi rt, none, none, none,
        (if jsTruthy (jsField data "code") then
          some (jsToString (jsField data "code")) else none),
        some (jsToString (jsOr (jsField data "info") (.str "Unknown error"))),
        none, none⟩
    else
      match jsField data "resource" with
      | .arr (r0 :: _) =>
        match scanUrlFields env r0 resourceUrlFields with
        | some s => .ok s
        | none => .error ⟨riApi rt, none, none, none, none,
            some ("Response successful but no valid URL found in fields: " ++
              joinSep ", " resourceUrlFields), none, none⟩
      | _ => .error ⟨riApi rt, none, none, none, none,
          some "Response successful but no resource array found", none, none⟩


/-- The two resource types of line 194; `E` is deliberately excluded. -/
def resourceTypes : List Nat := [2, 0]


/-- The Strategy B loop over the resource types: first success wins,
failures accumulate attempts. -/
def strategyBLoop (env : StrategyBEnv) :
    List Nat → Option (String × Option String) × List Attempt
  | [] => (none, [])
  | rt :: rest =>
    match strategyBStep env rt with
    | .ok s => (some s, [])
    | .error a =>
      let r := strategyBLoop env rest
      (r.1, a :: r.2)


/-- Strategy B of one `resolveMiguUrl` call. -/
def strategyB (env : StrategyBEnv) : Option (String × Option String) × List Attempt :=
  strategyBLoop env resourceTypes


/-- First truthy URL-bearing field of a resource record, in field
order. -/
def firstUrlField (resource : JSValue) : Option JSValue :=
  firstTruthyField resource resourceUrlFields


/-- Claim C5 as stated, at one environment and resource record: a URL
produced by the field scan is always derived from the first non-empty
URL-bearing field. -/
def strategyBStatedAt (env : StrategyBEnv) (resource : JSValue) : Prop :=
  ∀ u ct, scanUrlFields env resource resourceUrlFields = some (u, ct) →
    ∀ v, firstUrlField resource = some v →
      ∃ p, urlPathname (jsToString v) = some p ∧ u = miguHost ++ p


/-- Qualification of one URL-bearing field per the amended claim: the
field value is truthy, parses as a URL, and its path re-hosted under
the canonical host answers 200 to the header-only probe. -/
def fieldQualifies (env : StrategyBEnv) (resource : JSValue) (f : String) : Bool :=
  jsTruthy (jsField resource f) &&
    match urlPathname (jsToString (jsField resource f)) with
    | some p => env.headStatus (miguHost ++ p) == 200
    | none => false


/-- Specification-side field scan, following the amended claim: the
candidate URL derived from the FIRST qualifying field, in field order;
`none` when no field qualifies. -/
def scanUrlFieldsSpec (env : StrategyBEnv) (resource : JSValue)
    (fields : List String) : Option (String × Option String) :=
  match fields.find? (fieldQualifies env resource) with
  | some f =>
    match urlPathname (jsToString (jsField resource f)) with
    | some p => some (miguHost ++ p, env.headContentType (miguHost ++ p))
    | none => none
  | none => none


/-! ## `resolveMiguUrl` (downloader.js lines 119-293) -/
/-- The `listenSong.do` URL of line 168. -/
def listenSongUrl (actualToneFlag copyrightId effectiveContentId : String) : String :=
  "https://app.c.nf.migu.cn/MIGUM2.0/v1.0/content/sub/listenSong.do?toneFlag=" ++
    actualToneFlag ++ "&netType=00&userId=&ua=Android_migu&version=5.0.1&copyrightId=" ++
    copyrightId ++ "&contentId=" ++ effectiveContentId ++ "&resourceType=2&channel=0"


/-- The structured failure of `resolveMiguUrl` (lines 281-292, and the
missing-copyrightId return of lines 120-128). -/
structure MiguError where
  message : String
  code : Option String
  toneFlag : Option String
  mappedToneFlag : Option String
  mappingLog : Option (List String)
  copyrightId : Option String
  contentId : Option String
  attempts : Option (List Attempt)
deriving DecidableEq, Repr


/-- Return value of `resolveMiguUrl`. -/
structure MiguResult where
  finalUrl : Option String
  contentType : Option String
  error : Option MiguError
deriving DecidableEq, Repr


/-- Environment of one `resolveMiguUrl` call: the responses seen by the
Strategy A `resolveDownloadUrl` call (keyed by the listen URL) and by
Strategy B. -/
structure MiguEnv where
  resolveEnv : String → ResolveEnv
  sbEnv : StrategyBEnv


/-- The `toneFlag_mapping` warning entries pushed by the mapping phase
(lines 144-161): one entry when mapping failed or `rawFormat` is
missing, none otherwise. -/
def miguMappingAttempts (jsonParse : String → Option JSValue)
    (toneFlag : String) (rawFormat : JSValue) : List Attempt :=
  let ph := toneMappingPhase jsonParse toneFlag rawFormat
  if ph.warningRecorded then
    if jsTruthy rawFormat then
      [⟨"toneFlag_mapping", none, none, none, none,
        some ("rawFormat does not contain format code for " ++ toneFlag),
        some "Using quality label as fallback - may cause PE parameter error",
        some ph.mappingLog⟩]
    else
      [⟨"toneFlag_mapping", none, none, none, none,
        some "rawFormat missing - cannot map quality to format code",
        some "Using quality label as fallback - may cause PE parameter error",
        none⟩]
  else []


/-- Line 165: `contentId || copyrightId`. -/
def miguEffectiveContentId (copyrightId : String) (contentId : Option String) : String :=
  match contentId with
  | some c => if c ≠ "" then c else copyrightId
  | none => copyrightId


/-- Strategy A of `resolveMiguUrl` (lines 163-190): the `listenSong.do`
call through `resolveDownloadUrl`; a failure carries the recorded
attempt entries. -/
def miguStrategy1 (jsonParse : String → Option JSValue) (env : MiguEnv)
    (copyrightId : String) (contentId : Option String) (toneFlag : String)
    (rawFormat : JSValue) : Except (List Attempt) (String × Option String) :=
  let ph := toneMappingPhase jsonParse toneFlag rawFormat
  let effectiveContentId := miguEffectiveContentId copyrightId contentId
  let listenUrl := listenSongUrl ph.actualToneFlag copyrightId effectiveContentId
  if effectiveContentId ≠ "" then
    match resolveDownloadUrl (env.resolveEnv listenUrl) listenUrl ph.actualToneFlag with
    | .ok (.success u ct) => .ok (u, ct)
    | .ok (.apiError sc ct msg code _) =>
      .error [⟨"listenSong.do", some (toneFlag ++ " → " ++ ph.actualToneFlag),
        some sc, some ct, some code, some msg, none, none⟩]
    | .error e =>
      .error [⟨"listenSong.do", some (toneFlag ++ " → " ++ ph.actualToneFlag),
        none, none, none, some e, none, none⟩]
  else .error []


/-- Model of `resolveMiguUrl(copyrightId, contentId, toneFlag, rawFormat)`. -/
def resolveMiguUrl (jsonParse : String → Option JSValue) (env : MiguEnv)
    (copyrightId : String) (contentId : Option String) (toneFlag : String)
    (rawFormat : JSValue) : MiguResult :=
  if copyrightId = "" then
    ⟨none, none, some ⟨"Missing copyrightId - cannot resolve Migu URL",
      some "MISSING_COPYRIGHT_ID", none, none, none, none, none, none⟩⟩
  else
    match miguStrategy1 jsonParse env copyrightId contentId toneFlag rawFormat with
    | .ok (u, ct) => ⟨some u, ct, none⟩
    | .error a1 =>
      match strategyB env.sbEnv with
      | (some (u, ct), _) => ⟨some u, ct, none⟩
      | (none, batts) =>
        let ph := toneMappingPhase jsonParse toneFlag rawFormat
        ⟨none, none, some ⟨"Failed to resolve Migu URL after trying all strategies",
          none, some toneFlag, some ph.actualToneFlag,
          (if ph.mappingLog ≠ [] then some ph.mappingLog else none),
          some copyrightId, contentId,
          some (miguMappingAttempts jsonParse toneFlag rawFormat ++ a1 ++ batts)⟩⟩


/-! ## The Task Orchestrator failure message (`processDownloadTask`,
lines 712-759) and the Task Store update (`updateTaskStatus`,
database.js lines 235-302) -/
/-- Rendering of one recorded attempt (lines 730-748). -/
def renderAttempt (a : Attempt) : String :=
  a.api
  ++ (match a.mappedToneFlag with
      | some m => if m ≠ "" then " (" ++ m ++ ")" else ""
      | none => "")
  ++ (match a.statusCode with
      | some sc => if sc ≠ 0 then " " ++ ("HTTP " ++ toString sc) else ""
      | none => "")
  ++ (match a.code with
      | some c => if c ≠ "" then " " ++ ("code=" ++ c) else ""
      | none => "")
  ++ (match a.message with
      | some m => if m ≠ "" then ": " ++ m else ""
      | none => "")
  ++ (match a.mappingLog with
      | some l => " [" ++ joinSep ", " l ++ "]"
      | none => "")


/-- The failure message synthesized by the Task Orchestrator when Migu
URL resolution exhausts all trials (lines 714-752). -/
def buildMiguFailureMessage (triedFlags : List String) (error : MiguError) : String :=
  "Failed to resolve Migu download URL after trying qualities: "
    ++ joinSep ", " triedFlags ++ ". "
  ++ (match error.mappingLog with
      | some l => if l ≠ [] then "Quality mapping: " ++ joinSep ", " l ++ ". " else ""
      | none => "")
  ++ (match error.copyrightId with
      | some c => if c ≠ "" then "CopyrightId: " ++ c ++ ". " else ""
      | none => "")
  ++ (match error.contentId with
      | some c => if c ≠ "" then "ContentId: " ++ c ++ ". " else ""
      | none => "")
  ++ (match error.attempts with
      | some atts => "Attempts: " ++ joinSep "; " (atts.map renderAttempt)
      | none => if error.message ≠ "" then error.message else "")


/-- One persisted task row: the columns `updateTaskStatus` can touch,
plus representative columns it never touches. -/
structure TaskRow where
  status : String
  updated_at : Nat
  error_message : Option String
  staging_path : Option String
  library_path : Option String
  source_url : Option String
  resolved_url : Option String
  progress : Option Int
  downloaded_bytes : Option Int
  total_bytes : Option Int
  speed_bps : Option Int
  eta_seconds : Option Int
  tried_tone_flags : Option String
  title : String
  artist : String
  created_at : Nat
deriving DecidableEq, Repr


/-- The `additionalData` argument of `updateTaskStatus`; `none` models
an absent (`undefined`) field. -/
structure UpdateData where
  stagingPath : Option String
  libraryPath : Option String
  sourceUrl : Option String
  resolvedUrl : Option String
  progress : Option Int
  downloadedBytes : Option Int
  totalBytes : Option Int
  speedBps : Option Int
  etaSeconds : Option Int
  triedToneFlags : Option String
deriving DecidableEq, Repr


/-- The empty `additionalData` default. -/
def noUpdate : UpdateData :=
  ⟨none, none, none, none, none, none, none, none, none, none⟩


/-- Model of `updateTaskStatus(id, status, errorMessage, additionalData)` as a
row transformer: `status` and `updated_at` always written; the error
message and the string-valued fields only when truthy; the numeric
fields whenever defined. -/
def updateTaskStatus (row : TaskRow) (status : String)
    (errorMessage : Option String) (d : UpdateData) (now : Nat) : TaskRow :=
  { row with
    status := status
    updated_at := now
    error_message := if optTruthy errorMessage then errorMessage else row.error_message
    staging_path := if optTruthy d.stagingPath then d.stagingPath else row.staging_path
    library_path := if optTruthy d.libraryPath then d.libraryPath else row.library_path
    source_url := if optTruthy d.sourceUrl then d.sourceUrl else row.source_url
    resolved_url := if optTruthy d.resolvedUrl then d.resolvedUrl else row.resolved_url
    progress := if d.progress.isSome then d.progress else row.progress
    downloaded_bytes :=
      if d.downloadedBytes.isSome then d.downloadedBytes else row.downloaded_bytes
    total_bytes := if d.totalBytes.isSome then d.totalBytes else row.total_bytes
    speed_bps := if d.speedBps.isSome then d.speedBps else row.speed_bps
    eta_seconds := if d.etaSeconds.isSome then d.etaSeconds else row.eta_seconds
    tried_tone_flags :=
      if optTruthy d.triedToneFlags then d.triedToneFlags else row.tried_tone_flags }


/-! ## Download staging cleanup (`downloadToStaging`, lines 506-611) -/
/-- JS `path.replace(".tmp", ext)`: replace the first occurrence. -/
def replaceTmp (path ext : String) : String :=
  match breakOnSub ".tmp".data path.data with
  | some (pre, post) => String.mk pre ++ ext ++ String.mk post
  | none => path


/-- Result of one `downloadToStaging` attempt over a staging-directory
model (the list of paths present): the directory contents afterwards
and the returned path/extension or the propagated failure. -/
structure StagingResult where
  fs : List String
  outcome : Except String (String × String)
deriving Repr


/-- Model of `downloadToStaging(url, taskId, ...)` as a transformer of the
staging directory: the write stream creates the uniquely-named `.tmp`
file; on pipeline success the file is renamed to carry the inferred
extension; on pipeline failure the partial file is unlinked (when
present) before the error propagates. -/
def downloadToStaging (fs0 : List String) (stagingPath : String)
    (url : String) (headers : Headers) (pipelineOk : Bool) : StagingResult :=
  let fs1 := stagingPath :: fs0
  if pipelineOk then
    let detectedExt := inferExtension url headers
    let finalPath := replaceTmp stagingPath detectedExt
    ⟨finalPath :: fs1.erase stagingPath, .ok (finalPath, detectedExt)⟩
  else
    ⟨if stagingPath ∈ fs1 then fs1.erase stagingPath else fs1,
      .error "stream failed"⟩


theorem strContains_self (s : String) : strContains s s :=
  ⟨[], [], by simp⟩


theorem strContains_appendL {a x : String} (b : String) (h : strContains a x) :
    strContains (a ++ b) x := by
  unfold strContains at *
  rw [String.data_append]
  exact h.trans ⟨[], b.data, by simp⟩


theorem strContains_appendR {b x : String} (a : String) (h : strContains b x) :
    strContains (a ++ b) x := by
  unfold strContains at *
  rw [String.data_append]
  exact h.trans ⟨a.data, [], by simp⟩


theorem strContains_trans {a b x : String} (hx : strContains b x)
    (hb : strContains a b) : strContains a x :=
  List.IsInfix.trans hx hb


theorem strContains_joinSep {sep x : String} {l : List String} (h : x ∈ l) :
    strContains (joinSep sep l) x := by
  induction l with
  | nil => cases h
  | cons a rest ih =>
    rcases List.mem_cons.mp h with rfl | hmem
    · cases rest with
      | nil => exact strContains_self x
      | cons b r =>
        exact strContains_appendL _ (strContains_appendL _ (strContains_self x))
    · cases rest with
      | nil => cases hmem
      | cons b r => exact strContains_appendR _ (ih hmem)


/-! ## Supporting lemmas for the quality-mapping theorems -/
theorem mapQualityWithFallback_nil (jp : String → Option JSValue)
    (q : String) (raw : JSValue) :
    (mapQualityWithFallback jp q raw []).formatCode =
      mapQualityToFormatCode jp q raw := by
  unfold mapQualityWithFallback
  cases h : mapQualityToFormatCode jp q raw <;> simp [degradeLoop]


theorem toneMappingPhase_actual (jp : String → Option JSValue)
    (label : String) (raw : JSValue) :
    (toneMappingPhase jp label raw).actualToneFlag =
      (mapQualityToFormatCode jp label raw).getD label
    ∧ (toneMappingPhase jp label raw).warningRecorded =
      (mapQualityToFormatCode jp label raw).isNone := by
  unfold toneMappingPhase
  by_cases hT : jsTruthy raw
  · rw [if_pos hT]
    have hfc := mapQualityWithFallback_nil jp label raw
    cases hm : (mapQualityWithFallback jp label raw []).formatCode with
    | some c' => simp [hm, ← hfc]
    | none => simp [hm, ← hfc]
  · rw [if_neg hT]
    have hnone : mapQualityToFormatCode jp label raw = none := by
      unfold mapQualityToFormatCode
      rw [if_pos hT]
    simp [hnone]


theorem degradeAttemptLoop_spec (fails : String → Bool) :
    ∀ (order tried : List String),
      (degradeAttemptLoop fails tried order).Nodup ∧
      ∀ q ∈ degradeAttemptLoop fails tried order, q ∉ tried := by
  intro order
  induction order with
  | nil => intro tried; simp [degradeAttemptLoop]
  | cons q rest ih =>
    intro tried
    by_cases hq : q ∈ tried
    · simpa [degradeAttemptLoop, hq] using ih tried
    · by_cases hf : fails q
      · have hrw : degradeAttemptLoop fails tried (q :: rest) =
            q :: degradeAttemptLoop fails (q :: tried) rest := by
          simp [degradeAttemptLoop, hq, hf]
        have h1 := ih (q :: tried)
        rw [hrw]
        constructor
        · exact List.nodup_cons.mpr
            ⟨fun hin => h1.2 q hin (List.mem_cons_self q tried), h1.1⟩
        · intro p hp
          rcases List.mem_cons.mp hp with rfl | hp
          · exact hq
          · exact fun hpt => h1.2 p hp (List.mem_cons_of_mem _ hpt)
      · have hrw : degradeAttemptLoop fails tried (q :: rest) = [q] := by
          simp [degradeAttemptLoop, hq, hf]
        rw [hrw]
        refine ⟨List.nodup_singleton q, ?_⟩
        intro p hp
        rcases List.mem_singleton.mp hp with rfl
        exact hq


/-! ## Theorems for the claims on quality mapping and trials -/
/-- C6: for the catalog entry found for the requested label, the
resolved format code is the `androidFormat` field of the entry if truthy,
else `iosFormat`, else `format`; an entry lacking all three contributes
no code. Both the array-catalog and single-object-catalog cases are
covered. -/
theorem mapQuality_entry_code_priority (jsonParse : String → Option JSValue)
    (label : String) (items : List JSValue) (entry : JSValue)
    (hfind : items.find? (fun item =>
      jsTruthy item && jsStrictEqStr (jsField item "formatType") label) = some entry) :
    mapQualityToFormatCode jsonParse label (.arr items) = entryFormatCode entry
    ∧ (jsTruthy (jsField entry "androidFormat") = true →
        entryFormatCode entry = some (jsToString (jsField entry "androidFormat")))
    ∧ (jsTruthy (jsField entry "androidFormat") = false →
        jsTruthy (jsField entry "iosFormat") = true →
        entryFormatCode entry = some (jsToString (jsField entry "iosFormat")))
    ∧ (jsTruthy (jsField entry "androidFormat") = false →
        jsTruthy (jsField entry "iosFormat") = false →
        jsTruthy (jsField entry "format") = true →
        entryFormatCode entry = some (jsToString (jsField entry "format")))
    ∧ (jsTruthy (jsField entry "androidFormat") = false →
        jsTruthy (jsField entry "iosFormat") = false →
        jsTruthy (jsField entry "format") = false →
        entryFormatCode entry = none)
    ∧ (∀ fields, jsStrictEqStr (jsField (.obj fields) "formatType") label = true →
        mapQualityToFormatCode jsonParse label (.obj fields) =
          entryFormatCode (.obj fields)) := by
  refine ⟨?_, ?_, ?_, ?_, ?_, ?_⟩
  · have h2 : mapQualityToFormatCode jsonParse label (.arr items) =
        match items.find? (fun item =>
          jsTruthy item && jsStrictEqStr (jsField item "formatType") label) with
        | some e => entryFormatCode e
        | none => none := rfl
    rw [h2, hfind]
  · intro h1; simp [entryFormatCode, jsOr, h1]
  · intro h1 h2; simp [entryFormatCode, jsOr, h1, h2]
  · intro h1 h2 h3; simp [entryFormatCode, jsOr, h1, h2, h3]
  · intro h1 h2 h3; simp [entryFormatCode, jsOr, h1, h2, h3]
  · intro fields h
    have h2 : mapQualityToFormatCode jsonParse label (.obj fields) =
        if jsStrictEqStr (jsField (.obj fields) "formatType") label then
          entryFormatCode (.obj fields)
        else none := rfl
    rw [h2, if_pos h]


/-- Witness for C6 at a concrete catalog entry carrying all three code
fields. -/
theorem mapQuality_entry_code_priority_witness :
    mapQualityToFormatCode (fun _ => none) "HQ"
      (.arr [.obj [("formatType", .str "HQ"), ("androidFormat", .str "020010"),
        ("iosFormat", .str "I1"), ("format", .str "F1")]]) = some "020010" := by
  have h := mapQuality_entry_code_priority (fun _ => none) "HQ"
    [.obj [("formatType", .str "HQ"), ("androidFormat", .str "020010"),
      ("iosFormat", .str "I1"), ("format", .str "F1")]]
    (.obj [("formatType", .str "HQ"), ("androidFormat", .str "020010"),
      ("iosFormat", .str "I1"), ("format", .str "F1")]) rfl
  rw [h.1, h.2.1 rfl]
  rfl


/-- C7: a `null` or empty payload yields no code; a string payload whose
JSON decoding fails yields no code (never an error, the function being
total); a string payload that decodes to a structured (non-string) value
is mapped exactly like that value passed directly. -/
theorem mapQuality_tolerant_parse (jsonParse : String → Option JSValue)
    (label s : String) (v : JSValue) (hs : s ≠ "")
    (hv : ∀ t, v ≠ .str t) :
    mapQualityToFormatCode jsonParse label .null = none
    ∧ mapQualityToFormatCode jsonParse label (.str "") = none
    ∧ (jsonParse s = none → mapQualityToFormatCode jsonParse label (.str s) = none)
    ∧ (jsonParse s = some v → mapQualityToFormatCode jsonParse label (.str s) =
        mapQualityToFormatCode jsonParse label v) := by
  refine ⟨?_, ?_, ?_, ?_⟩
  · simp [mapQualityToFormatCode, jsTruthy]
  · simp [mapQualityToFormatCode, jsTruthy]
  · intro hp; simp [mapQualityToFormatCode, jsTruthy, hs, hp]
  · intro hp
    cases v with
    | null => simp [mapQualityToFormatCode, jsTruthy, hs, hp]
    | bool b => cases b <;> simp [mapQualityToFormatCode, jsTruthy, hs, hp]
    | num n =>
      by_cases hn : n = 0 <;>
        simp [mapQualityToFormatCode, jsTruthy, hs, hp, hn]
    | str t => exact absurd rfl (hv t)
    | arr items => simp [mapQualityToFormatCode, jsTruthy, hs, hp]
    | obj fields => simp [mapQualityToFormatCode, jsTruthy, hs, hp]


/-- Witness for C7 at a concrete malformed payload and a concrete
JSON-string payload decoding to an empty array. -/
theorem mapQuality_tolerant_parse_witness :
    mapQualityToFormatCode (fun _ => none) "HQ" .null = none
    ∧ mapQualityToFormatCode (fun _ => none) "HQ" (.str "not json") = none
    ∧ mapQualityToFormatCode (fun _ => some (.arr [])) "HQ" (.str "[]") =
      mapQualityToFormatCode (fun _ => some (.arr [])) "HQ" (.arr []) := by
  have h1 := mapQuality_tolerant_parse (fun _ => none) "HQ" "not json" (.arr [])
    (by decide) (fun t h => JSValue.noConfusion h)
  have h2 := mapQuality_tolerant_parse (fun _ => some (.arr [])) "HQ" "[]" (.arr [])
    (by decide) (fun t h => JSValue.noConfusion h)
  exact ⟨h1.1, h1.2.2.1 rfl, h2.2.2.2 rfl⟩


/-- C8: within one resolution run of the Task Orchestrator, the list of
attempted (and recorded) quality labels contains no duplicates, even if
the preferred label also appears in the degrade order. -/
theorem attemptedLabels_nodup (fails : String → Bool) (preferred : String)
    (allowDegrade : Bool) (degradeOrder : List String) :
    (attemptedLabels fails preferred allowDegrade degradeOrder).Nodup := by
  unfold attemptedLabels
  split
  · have h := degradeAttemptLoop_spec fails degradeOrder [preferred]
    exact List.nodup_cons.mpr
      ⟨fun hin => h.2 _ hin (List.mem_singleton.mpr rfl), h.1⟩
  · exact List.nodup_singleton preferred


/-- Counterexample to C1 as stated: with a catalog resolving only HQ, a
preferred label SQ and degrade order [HQ], the run still issues a trial
for the catalog-unresolved SQ using the label itself as the code, even
though HQ resolves — no label is skipped and the fallback trial is not
the only trial. -/
theorem trialSequence_skip_counterexample :
    trialSequenceSkipsUnresolved (fun _ => none)
      (.arr [.obj [("formatType", .str "HQ"), ("androidFormat", .str "020010")]])
      (fun _ => true) "SQ" true ["HQ"] = false := by
  decide


/-- C1 amended: every attempted label whose catalog lookup succeeds is
tried with its catalog code (no fallback marker); every attempted label
whose catalog lookup fails is still tried — not skipped — with the label
itself as the format code, carrying the warning marker of the recorded
`toneFlag_mapping` attempt. -/
theorem trialSequence_code_choice (jsonParse : String → Option JSValue)
    (rawFormat : JSValue) (fails : String → Bool) (preferred : String)
    (allowDegrade : Bool) (degradeOrder : List String) :
    ∀ t ∈ trialSequence jsonParse rawFormat fails preferred allowDegrade degradeOrder,
      (∀ c, catalogCode jsonParse rawFormat t.label = some c →
        t.code = c ∧ t.usedFallback = false)
      ∧ (catalogCode jsonParse rawFormat t.label = none →
        t.code = t.label ∧ t.usedFallback = true) := by
  intro t ht
  obtain ⟨label, _, rfl⟩ := List.mem_map.mp ht
  have h := toneMappingPhase_actual jsonParse label rawFormat
  have hlab : (miguTrial jsonParse rawFormat label).label = label := rfl
  constructor
  · intro c hc
    unfold catalogCode at hc
    rw [hlab] at hc
    constructor
    · show (toneMappingPhase jsonParse label rawFormat).actualToneFlag = c
      rw [h.1, hc]; rfl
    · show (toneMappingPhase jsonParse label rawFormat).warningRecorded = false
      rw [h.2, hc]; rfl
  · intro hc
    unfold catalogCode at hc
    rw [hlab] at hc
    constructor
    · show (toneMappingPhase jsonParse label rawFormat).actualToneFlag =
        (miguTrial jsonParse rawFormat label).label
      rw [h.1, hc]; rfl
    · show (toneMappingPhase jsonParse label rawFormat).warningRecorded = true
      rw [h.2, hc]; rfl


/-- Witness for the amended C1 at a concrete run with an empty catalog:
the single trial uses the preferred label itself with the fallback
marker. -/
theorem trialSequence_code_choice_witness :
    (miguTrial (fun _ => none) .null "HQ").code = "HQ"
    ∧ (miguTrial (fun _ => none) .null "HQ").usedFallback = true :=
  (trialSequence_code_choice (fun _ => none) .null (fun _ => true) "HQ" false []
    (miguTrial (fun _ => none) .null "HQ") (by decide)).2 rfl


/-- C3: extension inference follows the claimed precedence — a URL-path
extension other than the non-informative `.do` wins; otherwise an
informative extension of the quote-stripped content-disposition filename
wins; otherwise the fixed content-type table (exactly the seven listed
pairs) wins; otherwise `.mp3`. -/
theorem inferExtension_precedence (url : String) (headers : Headers) :
    (∀ e, getExtension url = some e → e ≠ ".do" →
      inferExtension url headers = e)
    ∧ ((getExtension url = none ∨ getExtension url = some ".do") →
        ∀ e, dispositionExtension headers = some e →
          inferExtension url headers = e)
    ∧ ((getExtension url = none ∨ getExtension url = some ".do") →
        dispositionExtension headers = none →
        ∀ e, contentTypeExtension headers = some e →
          inferExtension url headers = e)
    ∧ ((getExtension url = none ∨ getExtension url = some ".do") →
        dispositionExtension headers = none →
        contentTypeExtension headers = none →
        inferExtension url headers = ".mp3")
    ∧ extTypeMap = [("audio/mpeg", ".mp3"), ("audio/mp3", ".mp3"),
        ("audio/flac", ".flac"), ("audio/x-flac", ".flac"),
        ("audio/mp4", ".m4a"), ("audio/m4a", ".m4a"),
        ("audio/x-m4a", ".m4a")] := by
  refine ⟨?_, ?_, ?_, ?_, rfl⟩
  · intro e he hdo
    simp [inferExtension, he, hdo]
  · intro hurl e he
    rcases hurl with h | h <;> simp [inferExtension, h, he, Option.orElse]
  · intro hurl hd e he
    rcases hurl with h | h <;> simp [inferExtension, h, hd, he, Option.orElse]
  · intro hurl hd hc
    rcases hurl with h | h <;> simp [inferExtension, h, hd, hc, Option.orElse]


/-- Witness for C3: a `.do` URL with a quoted content-disposition
filename — the filename extension wins over a conflicting
content-type. -/
theorem inferExtension_precedence_witness :
    inferExtension "https://app.c.nf.migu.cn/listenSong.do?id=1"
      ⟨some "attachment; filename=\"song.flac\"", some "audio/mpeg"⟩ =
      ".flac" :=
  (inferExtension_precedence "https://app.c.nf.migu.cn/listenSong.do?id=1"
      ⟨some "attachment; filename=\"song.flac\"", some "audio/mpeg"⟩).2.1
    (Or.inr (by decide)) ".flac" (by decide)


/-- C4: when the header-only probe answers a status in
{301, 302, 303, 307, 308} with a location header — or, the probe having
decided nothing, when the fallback GET with redirects disabled does —
resolution succeeds and the resolved URL is exactly that location. -/
theorem resolveDownloadUrl_redirect_location (env : ResolveEnv)
    (url toneFlag loc : String) (r g : HttpResponse) :
    (env.headResp = .ok r → redirectCodes.contains r.statusCode = true →
      r.location = some loc → loc ≠ "" →
      resolveDownloadUrl env url toneFlag = .ok (.success loc none))
    ∧ (env.headResp = .ok r →
      (redirectCodes.contains r.statusCode && optTruthy r.location) = false →
      r.statusCode < 400 →
      (r.statusCode = 200 && optTruthy r.contentType &&
        (strContainsB (r.contentType.getD "") "application/json" ||
         strContainsB (r.contentType.getD "") "audio/" ||
         strContainsB (r.contentType.getD "") "application/octet-stream")) = false →
      env.getResp = .ok g → redirectCodes.contains g.statusCode = true →
      g.location = some loc → loc ≠ "" →
      resolveDownloadUrl env url toneFlag = .ok (.success loc none)) := by
  constructor
  · intro hh hcode hloc hne
    have hmem : r.statusCode ∈ redirectCodes := by simpa using hcode
    have hopt : optTruthy (some loc) = true := by simpa [optTruthy] using hne
    simp [resolveDownloadUrl, resolveDownloadUrlInner, hh, hmem, hopt, hloc]
  · intro hh hnored hlt hn200 hg hgcode hgloc hgne
    have hno : ¬ (r.statusCode ∈ redirectCodes ∧ optTruthy r.location = true) := by
      rintro ⟨hm, ht⟩
      simp [ht] at hnored
      exact hnored hm
    have hge : ¬ (400 ≤ r.statusCode) := by omega
    have hb1 : (r.statusCode = 200 && optTruthy r.contentType &&
        strContainsB (r.contentType.getD "") "application/json") = false := by
      cases h200 : (decide (r.statusCode = 200) : Bool) <;>
        cases hct : optTruthy r.contentType <;>
        cases hj : strContainsB (r.contentType.getD "") "application/json" <;>
        simp_all
    have hb2 : (r.statusCode = 200 && optTruthy r.contentType &&
        (strContainsB (r.contentType.getD "") "audio/" ||
         strContainsB (r.contentType.getD "") "application/octet-stream")) = false := by
      cases h200 : (decide (r.statusCode = 200) : Bool) <;>
        cases hct : optTruthy r.contentType <;>
        cases ha : strContainsB (r.contentType.getD "") "audio/" <;>
        cases ho : strContainsB (r.contentType.getD "") "application/octet-stream" <;>
        simp_all
    have hgmem : g.statusCode ∈ redirectCodes := by simpa using hgcode
    have hgopt : optTruthy (some loc) = true := by simpa [optTruthy] using hgne
    simp [resolveDownloadUrl, resolveDownloadUrlInner, hh, hno, hge, hb1, hb2,
      hg, hgmem, hgopt, hgloc]


/-- Witness for C4: a concrete 302 probe response and a concrete
probe-undecided environment resolved by the fallback GET. -/
theorem resolveDownloadUrl_redirect_location_witness :
    resolveDownloadUrl
        ⟨.ok ⟨302, some "https://freetyst.nf.migu.cn/a.mp3", none⟩,
          .error "t", .error "t", .error "t"⟩ "u" "HQ" =
      .ok (.success "https://freetyst.nf.migu.cn/a.mp3" none)
    ∧ resolveDownloadUrl
        ⟨.ok ⟨204, none, none⟩, .error "t", .error "t",
          .ok ⟨307, some "https://freetyst.nf.migu.cn/b.mp3", none⟩⟩ "u" "HQ" =
      .ok (.success "https://freetyst.nf.migu.cn/b.mp3" none) := by
  constructor
  · exact (resolveDownloadUrl_redirect_location
      ⟨.ok ⟨302, some "https://freetyst.nf.migu.cn/a.mp3", none⟩,
        .error "t", .error "t", .error "t"⟩ "u" "HQ"
      "https://freetyst.nf.migu.cn/a.mp3" ⟨302, some "https://freetyst.nf.migu.cn/a.mp3", none⟩
      ⟨302, some "https://freetyst.nf.migu.cn/a.mp3", none⟩).1
      rfl (by decide) rfl (by decide)
  · exact (resolveDownloadUrl_redirect_location
      ⟨.ok ⟨204, none, none⟩, .error "t", .error "t",
        .ok ⟨307, some "https://freetyst.nf.migu.cn/b.mp3", none⟩⟩ "u" "HQ"
      "https://freetyst.nf.migu.cn/b.mp3" ⟨204, none, none⟩
      ⟨307, some "https://freetyst.nf.migu.cn/b.mp3", none⟩).2
      rfl (by decide) (by decide) (by decide) rfl (by decide) rfl (by decide)


theorem strategyBStep_error_api (env : StrategyBEnv) (rt : Nat) (a : Attempt)
    (h : strategyBStep env rt = .error a) : a.api = riApi rt := by
  unfold strategyBStep at h
  repeat' split at h
  all_goals first
    | (injection h with h'; rw [← h'])
    | cases h


/-- Counterexample to C5 as stated: when the first non-empty URL field
fails the 200 verification, the scan moves on and returns a URL derived
from a later field — the returned URL is not built from the first
non-empty URL-bearing field. -/
theorem strategyB_first_field_counterexample :
    ¬ strategyBStatedAt
      ⟨fun _ => .error "t",
        fun u => if u = "https://freetyst.nf.migu.cn/b.mp3" then 200 else 404,
        fun _ => none⟩
      (.obj [("audioUrl", .str "https://x.com/a.mp3"),
             ("url", .str "https://x.com/b.mp3")]) := by
  intro h
  obtain ⟨p, hp, hu⟩ := h "https://freetyst.nf.migu.cn/b.mp3" none rfl
    (.str "https://x.com/a.mp3") rfl
  rw [show urlPathname (jsToString (.str "https://x.com/a.mp3")) = some "/a.mp3"
    from rfl] at hp
  rw [← Option.some.inj hp] at hu
  exact absurd hu (by decide)


theorem scanUrlFields_first (env : StrategyBEnv) (resource : JSValue) :
    ∀ fields, scanUrlFields env resource fields =
      scanUrlFieldsSpec env resource fields := by
  intro fields
  induction fields with
  | nil => rfl
  | cons f rest ih =>
    simp only [scanUrlFields, scanUrlFieldsSpec, List.find?_cons] at ih ⊢
    by_cases ht : jsTruthy (jsField resource f)
    · cases hp : urlPathname (jsToString (jsField resource f)) with
      | some p =>
        by_cases hs : env.headStatus (miguHost ++ p) = 200
        · have hq : fieldQualifies env resource f = true := by
            simp [fieldQualifies, ht, hp, hs]
          simp [ht, hp, hs, hq]
        · have hq : fieldQualifies env resource f = false := by
            simp [fieldQualifies, ht, hp, hs]
          simp [ht, hp, hs, hq, ih]
      | none =>
        have hq : fieldQualifies env resource f = false := by
          simp [fieldQualifies, ht, hp]
        simp [ht, hp, hq, ih]
    · have hq : fieldQualifies env resource f = false := by
        simp [fieldQualifies, ht]
      simp [ht, hq, ih]


/-- C5 amended: Strategy B queries exactly resource types 2 and 0;
the field scan equals, extensionally, the specification scan that
returns the candidate derived from the FIRST qualifying field — the
first truthy URL-bearing field of the first resource record whose value
parses as a URL and whose path, re-hosted under the canonical host,
answers 200 to the header-only probe — so every URL it returns is the
path component of that first qualifying field re-hosted under the
canonical host, returned only with a 200 HEAD answer; a resource type
that yields no verified URL records exactly one failed attempt, and a
success at resource type 2 stops the loop with no recorded attempt. -/
theorem strategyB_verified_rehosted (env : StrategyBEnv) :
    resourceTypes = [2, 0]
    ∧ (∀ resource fields,
        scanUrlFields env resource fields = scanUrlFieldsSpec env resource fields)
    ∧ (∀ resource fields u ct,
        scanUrlFields env resource fields = some (u, ct) →
        env.headStatus u = 200 ∧ ct = env.headContentType u ∧
        ∃ f p, f ∈ fields ∧ jsTruthy (jsField resource f) = true ∧
          urlPathname (jsToString (jsField resource f)) = some p ∧
          u = miguHost ++ p)
    ∧ ((strategyB env).1 = none →
        (strategyB env).2.map Attempt.api = [riApi 2, riApi 0])
    ∧ (∀ s, strategyBStep env 2 = .ok s → strategyB env = (some s, [])) := by
  refine ⟨rfl, fun resource fields => scanUrlFields_first env resource fields, ?_, ?_, ?_⟩
  · intro resource fields
    induction fields with
    | nil => intro u ct h; simp [scanUrlFields] at h
    | cons f rest ih =>
      intro u ct h
      simp only [scanUrlFields] at h
      by_cases ht : jsTruthy (jsField resource f)
      · rw [if_pos ht] at h
        cases hp : urlPathname (jsToString (jsField resource f)) with
        | some pathname =>
          rw [hp] at h
          dsimp only at h
          by_cases hs : env.headStatus (miguHost ++ pathname) = 200
          · rw [if_pos hs] at h
            have hpair := Option.some.inj h
            have h1 : miguHost ++ pathname = u := congrArg Prod.fst hpair
            have h2 : env.headContentType (miguHost ++ pathname) = ct :=
              congrArg Prod.snd hpair
            subst h1
            exact ⟨hs, h2.symm,
              f, pathname, List.mem_cons_self f rest, ht, hp, rfl⟩
          · rw [if_neg hs] at h
            obtain ⟨hstat, hct, f', p, hf, htr, hup, hu⟩ := ih u ct h
            exact ⟨hstat, hct, f', p, List.mem_cons_of_mem _ hf, htr, hup, hu⟩
        | none =>
          rw [hp] at h
          dsimp only at h
          obtain ⟨hstat, hct, f', p, hf, htr, hup, hu⟩ := ih u ct h
          exact ⟨hstat, hct, f', p, List.mem_cons_of_mem _ hf, htr, hup, hu⟩
      · rw [if_neg ht] at h
        obtain ⟨hstat, hct, f', p, hf, htr, hup, hu⟩ := ih u ct h
        exact ⟨hstat, hct, f', p, List.mem_cons_of_mem _ hf, htr, hup, hu⟩
  · intro hnone
    cases h2 : strategyBStep env 2 with
    | ok s => simp [strategyB, strategyBLoop, h2] at hnone
    | error a2 =>
      cases h0 : strategyBStep env 0 with
      | ok s => simp [strategyB, strategyBLoop, h2, h0] at hnone
      | error a0 =>
        simp [strategyB, strategyBLoop, h2, h0,
          strategyBStep_error_api env 2 a2 h2, strategyBStep_error_api env 0 a0 h0]
  · intro s h2
    simp [strategyB, strategyBLoop, h2]


/-- Witness for the amended C5: a concrete all-failing environment
records exactly one attempt per resource type, in order. -/
theorem strategyB_verified_rehosted_witness :
    (strategyB ⟨fun _ => .error "timeout", fun _ => 404, fun _ => none⟩).2.map
        Attempt.api = [riApi 2, riApi 0] :=
  (strategyB_verified_rehosted
    ⟨fun _ => .error "timeout", fun _ => 404, fun _ => none⟩).2.2.2.1 rfl


theorem append_ne_empty_left {a : String} (b : String) (h : a ≠ "") :
    a ++ b ≠ "" := by
  intro he
  apply h
  have hd : a.data ++ b.data = [] := by
    rw [← String.data_append, he]
  exact String.ext (List.append_eq_nil.mp hd).1


theorem strategyB_none_apis (env : StrategyBEnv)
    (h : (strategyB env).1 = none) :
    (strategyB env).2.map Attempt.api = [riApi 2, riApi 0] := by
  cases h2 : strategyBStep env 2 with
  | ok s => simp [strategyB, strategyBLoop, h2] at h
  | error a2 =>
    cases h0 : strategyBStep env 0 with
    | ok s => simp [strategyB, strategyBLoop, h2, h0] at h
    | error a0 =>
      simp [strategyB, strategyBLoop, h2, h0,
        strategyBStep_error_api env 2 a2 h2, strategyBStep_error_api env 0 a0 h0]


theorem miguEffectiveContentId_ne (copyrightId : String) (contentId : Option String)
    (hcid : copyrightId ≠ "") : miguEffectiveContentId copyrightId contentId ≠ "" := by
  unfold miguEffectiveContentId
  cases contentId with
  | none => exact hcid
  | some c =>
    by_cases hc : c = ""
    · simp [hc, hcid]
    · simp [hc]


theorem miguStrategy1_error_mem (jsonParse : String → Option JSValue)
    (env : MiguEnv) (copyrightId : String) (contentId : Option String)
    (toneFlag : String) (rawFormat : JSValue) (a1 : List Attempt)
    (hcid : copyrightId ≠ "")
    (h : miguStrategy1 jsonParse env copyrightId contentId toneFlag rawFormat = .error a1) :
    "listenSong.do" ∈ a1.map Attempt.api := by
  have heff := miguEffectiveContentId_ne copyrightId contentId hcid
  unfold miguStrategy1 at h
  dsimp only at h
  rw [if_pos heff] at h
  split at h
  · cases h
  · injection h with h'
    rw [← h']
    simp
  · injection h with h'
    rw [← h']
    simp


/-- C2: the failure message synthesized by the Task Orchestrator on
resolution exhaustion textually contains every attempted quality label,
every recorded attempt identity with its status, code and message, and
the identifiers; it is persisted with status `failed`; and the final
`resolveMiguUrl` failure always records attempts for Strategy A and for
both Strategy B resource types. -/
theorem miguFailureMessage_complete
    (triedFlags : List String) (err : MiguError) (row : TaskRow) (now : Nat)
    (jsonParse : String → Option JSValue) (env : MiguEnv) (copyrightId : String)
    (contentId : Option String) (toneFlag : String) (rawFormat : JSValue) :
    (∀ q ∈ triedFlags, strContains (buildMiguFailureMessage triedFlags err) q)
    ∧ (∀ atts, err.attempts = some atts → ∀ a ∈ atts,
        strContains (buildMiguFailureMessage triedFlags err) a.api
        ∧ (∀ sc, a.statusCode = some sc → sc ≠ 0 →
            strContains (buildMiguFailureMessage triedFlags err) ("HTTP " ++ toString sc))
        ∧ (∀ c, a.code = some c → c ≠ "" →
            strContains (buildMiguFailureMessage triedFlags err) ("code=" ++ c))
        ∧ (∀ m, a.message = some m → m ≠ "" →
            strContains (buildMiguFailureMessage triedFlags err) m))
    ∧ (∀ cid, err.copyrightId = some cid → cid ≠ "" →
        strContains (buildMiguFailureMessage triedFlags err) cid)
    ∧ (∀ cid, err.contentId = some cid → cid ≠ "" →
        strContains (buildMiguFailureMessage triedFlags err) cid)
    ∧ (updateTaskStatus row "failed" (some (buildMiguFailureMessage triedFlags err))
        { noUpdate with triedToneFlags := some (joinSep "," triedFlags) } now).status =
        "failed"
    ∧ (updateTaskStatus row "failed" (some (buildMiguFailureMessage triedFlags err))
        { noUpdate with triedToneFlags := some (joinSep "," triedFlags) } now).error_message =
        some (buildMiguFailureMessage triedFlags err)
    ∧ (copyrightId ≠ "" →
        (resolveMiguUrl jsonParse env copyrightId contentId toneFlag rawFormat).finalUrl = none →
        ∃ e atts,
          (resolveMiguUrl jsonParse env copyrightId contentId toneFlag rawFormat).error = some e
          ∧ e.attempts = some atts
          ∧ "listenSong.do" ∈ atts.map Attempt.api
          ∧ riApi 2 ∈ atts.map Attempt.api
          ∧ riApi 0 ∈ atts.map Attempt.api
          ∧ e.copyrightId = some copyrightId) := by
  refine ⟨?_, ?_, ?_, ?_, ?_, ?_, ?_⟩
  · intro q hq
    unfold buildMiguFailureMessage
    exact strContains_appendL _ (strContains_appendL _ (strContains_appendL _
      (strContains_appendL _ (strContains_appendL _ (strContains_appendR _
        (strContains_joinSep hq))))))
  · intro atts hatts a ha
    have hbase : strContains
        ("Attempts: " ++ joinSep "; " (atts.map renderAttempt)) (renderAttempt a) :=
      strContains_appendR _ (strContains_joinSep (List.mem_map_of_mem _ ha))
    have hlift : ∀ x, strContains (renderAttempt a) x →
        strContains (buildMiguFailureMessage triedFlags err) x := by
      intro x hx
      unfold buildMiguFailureMessage
      rw [hatts]
      dsimp only
      exact strContains_appendR _ (strContains_trans hx hbase)
    refine ⟨?_, ?_, ?_, ?_⟩
    · refine hlift _ ?_
      unfold renderAttempt
      exact strContains_appendL _ (strContains_appendL _ (strContains_appendL _
        (strContains_appendL _ (strContains_appendL _ (strContains_self _)))))
    · intro sc hsc hne
      refine hlift _ ?_
      unfold renderAttempt
      rw [hsc]
      dsimp only
      rw [if_pos hne]
      exact strContains_appendL _ (strContains_appendL _ (strContains_appendL _
        (strContains_appendR _ (strContains_appendR _ (strContains_self _)))))
    · intro c hc hne
      refine hlift _ ?_
      unfold renderAttempt
      rw [hc]
      dsimp only
      rw [if_pos hne]
      exact strContains_appendL _ (strContains_appendL _
        (strContains_appendR _ (strContains_appendR _ (strContains_self _))))
    · intro m hm hne
      refine hlift _ ?_
      unfold renderAttempt
      rw [hm]
      dsimp only
      rw [if_pos hne]
      exact strContains_appendL _
        (strContains_appendR _ (strContains_appendR _ (strContains_self _)))
  · intro cid hc hne
    unfold buildMiguFailureMessage
    rw [hc]
    dsimp only
    rw [if_pos hne]
    exact strContains_appendL _ (strContains_appendL _ (strContains_appendR _
      (strContains_appendL _ (strContains_appendR _ (strContains_self _)))))
  · intro cid hc hne
    unfold buildMiguFailureMessage
    rw [hc]
    dsimp only
    rw [if_pos hne]
    exact strContains_appendL _ (strContains_appendR _
      (strContains_appendL _ (strContains_appendR _ (strContains_self _))))
  · rfl
  · have hne : buildMiguFailureMessage triedFlags err ≠ "" := by
      unfold buildMiguFailureMessage
      repeat' apply append_ne_empty_left
      decide
    simp [updateTaskStatus, optTruthy, hne]
  · intro hcid hnone
    cases h1 : miguStrategy1 jsonParse env copyrightId contentId toneFlag rawFormat with
    | ok s =>
      rw [show resolveMiguUrl jsonParse env copyrightId contentId toneFlag rawFormat =
          ⟨some s.1, s.2, none⟩ from by
        unfold resolveMiguUrl; rw [if_neg hcid, h1]] at hnone
      cases hnone
    | error a1 =>
      cases hb : strategyB env.sbEnv with
      | mk bres batts =>
        cases bres with
        | some s =>
          rw [show resolveMiguUrl jsonParse env copyrightId contentId toneFlag rawFormat =
              ⟨some s.1, s.2, none⟩ from by
            unfold resolveMiguUrl; rw [if_neg hcid, h1, hb]] at hnone
          cases hnone
        | none =>
          have hres : resolveMiguUrl jsonParse env copyrightId contentId toneFlag rawFormat =
              ⟨none, none, some ⟨"Failed to resolve Migu URL after trying all strategies",
                none, some toneFlag,
                some (toneMappingPhase jsonParse toneFlag rawFormat).actualToneFlag,
                (if (toneMappingPhase jsonParse toneFlag rawFormat).mappingLog ≠ [] then
                  some (toneMappingPhase jsonParse toneFlag rawFormat).mappingLog else none),
                some copyrightId, contentId,
                some (miguMappingAttempts jsonParse toneFlag rawFormat ++ a1 ++ batts)⟩⟩ := by
            unfold resolveMiguUrl
            rw [if_neg hcid, h1, hb]
          rw [hres]
          have hbn : (strategyB env.sbEnv).1 = none := by rw [hb]
          have hbapi := strategyB_none_apis env.sbEnv hbn
          rw [hb] at hbapi
          refine ⟨_, _, rfl, rfl, ?_, ?_, ?_, rfl⟩
          · rw [List.map_append, List.map_append]
            exact List.mem_append.mpr (Or.inl (List.mem_append.mpr (Or.inr
              (miguStrategy1_error_mem jsonParse env copyrightId contentId toneFlag
                rawFormat a1 hcid h1))))
          · rw [List.map_append, List.map_append]
            refine List.mem_append.mpr (Or.inr ?_)
            rw [show batts.map Attempt.api = [riApi 2, riApi 0] from hbapi]
            exact List.mem_cons_self _ _
          · rw [List.map_append, List.map_append]
            refine List.mem_append.mpr (Or.inr ?_)
            rw [show batts.map Attempt.api = [riApi 2, riApi 0] from hbapi]
            exact List.mem_cons_of_mem _ (List.mem_singleton.mpr rfl)


/-- Witness for C2 at a concrete attempt trail and task row. -/
theorem miguFailureMessage_complete_witness :
    strContains
      (buildMiguFailureMessage ["SQ", "HQ"]
        ⟨"m", none, some "SQ", some "SQ", none, some "c1", none,
          some [⟨"listenSong.do", some "SQ → SQ", some 403, some "application/json",
            some "30011", some "PE parameter error", none, none⟩]⟩) "HQ"
    ∧ strContains
      (buildMiguFailureMessage ["SQ", "HQ"]
        ⟨"m", none, some "SQ", some "SQ", none, some "c1", none,
          some [⟨"listenSong.do", some "SQ → SQ", some 403, some "application/json",
            some "30011", some "PE parameter error", none, none⟩]⟩) "listenSong.do"
    ∧ (updateTaskStatus
        ⟨"downloading", 0, none, none, none, none, none, none, none, none, none, none,
          none, "t", "a", 0⟩ "failed"
        (some (buildMiguFailureMessage ["SQ", "HQ"]
          ⟨"m", none, some "SQ", some "SQ", none, some "c1", none,
            some [⟨"listenSong.do", some "SQ → SQ", some 403, some "application/json",
              some "30011", some "PE parameter error", none, none⟩]⟩))
        { noUpdate with triedToneFlags := some (joinSep "," ["SQ", "HQ"]) } 7).status =
      "failed" := by
  refine ⟨?_, ?_, ?_⟩
  · exact (miguFailureMessage_complete ["SQ", "HQ"]
      ⟨"m", none, some "SQ", some "SQ", none, some "c1", none,
        some [⟨"listenSong.do", some "SQ → SQ", some 403, some "application/json",
          some "30011", some "PE parameter error", none, none⟩]⟩
      ⟨"downloading", 0, none, none, none, none, none, none, none, none, none, none,
        none, "t", "a", 0⟩ 7 (fun _ => none)
      ⟨fun _ => ⟨.error "t", .error "t", .error "t", .error "t"⟩,
        ⟨fun _ => .error "t", fun _ => 404, fun _ => none⟩⟩
      "c1" none "SQ" .null).1 "HQ" (by decide)
  · exact ((miguFailureMessage_complete ["SQ", "HQ"]
      ⟨"m", none, some "SQ", some "SQ", none, some "c1", none,
        some [⟨"listenSong.do", some "SQ → SQ", some 403, some "application/json",
          some "30011", some "PE parameter error", none, none⟩]⟩
      ⟨"downloading", 0, none, none, none, none, none, none, none, none, none, none,
        none, "t", "a", 0⟩ 7 (fun _ => none)
      ⟨fun _ => ⟨.error "t", .error "t", .error "t", .error "t"⟩,
        ⟨fun _ => .error "t", fun _ => 404, fun _ => none⟩⟩
      "c1" none "SQ" .null).2.1 _ rfl
      ⟨"listenSong.do", some "SQ → SQ", some 403, some "application/json",
        some "30011", some "PE parameter error", none, none⟩
      (List.mem_singleton.mpr rfl)).1
  · exact (miguFailureMessage_complete ["SQ", "HQ"]
      ⟨"m", none, some "SQ", some "SQ", none, some "c1", none,
        some [⟨"listenSong.do", some "SQ → SQ", some 403, some "application/json",
          some "30011", some "PE parameter error", none, none⟩]⟩
      ⟨"downloading", 0, none, none, none, none, none, none, none, none, none, none,
        none, "t", "a", 0⟩ 7 (fun _ => none)
      ⟨fun _ => ⟨.error "t", .error "t", .error "t", .error "t"⟩,
        ⟨fun _ => .error "t", fun _ => 404, fun _ => none⟩⟩
      "c1" none "SQ" .null).2.2.2.2.1


/-- C9: a download attempt that fails after the streaming GET started
deletes its partial temporary file before the failure propagates — the
staging area is exactly as before the attempt, so no file of this
attempt remains. -/
theorem downloadToStaging_cleanup (fs0 : List String) (stagingPath : String)
    (url : String) (headers : Headers) (hnotin : stagingPath ∉ fs0) :
    (downloadToStaging fs0 stagingPath url headers false).fs = fs0
    ∧ (downloadToStaging fs0 stagingPath url headers false).outcome =
        .error "stream failed"
    ∧ stagingPath ∉ (downloadToStaging fs0 stagingPath url headers false).fs := by
  have hfs : (downloadToStaging fs0 stagingPath url headers false).fs = fs0 := by
    simp [downloadToStaging, List.erase_cons_head]
  exact ⟨hfs, rfl, by rw [hfs]; exact hnotin⟩


/-- Witness for C9 at a concrete staging directory. -/
theorem downloadToStaging_cleanup_witness :
    (downloadToStaging ["library/other.mp3"] "staging/task_1_5.tmp"
        "https://freetyst.nf.migu.cn/a.mp3" ⟨none, none⟩ false).fs =
      ["library/other.mp3"] :=
  (downloadToStaging_cleanup ["library/other.mp3"] "staging/task_1_5.tmp"
    "https://freetyst.nf.migu.cn/a.mp3" ⟨none, none⟩ (by decide)).1


/-- C10: `updateTaskStatus` always writes `status` and `updated_at`;
it writes `error_message` and the string-valued columns only when the
supplied value is truthy (so a null or empty `errorMessage` never
clears a prior error message), writes the numeric progress columns
whenever the value is defined — including zero — and touches no other
column. -/
theorem updateTaskStatus_frame (row : TaskRow) (status : String)
    (em : Option String) (d : UpdateData) (now : Nat) :
    (updateTaskStatus row status em d now).status = status
    ∧ (updateTaskStatus row status em d now).updated_at = now
    ∧ (optTruthy em = false →
        (updateTaskStatus row status em d now).error_message = row.error_message)
    ∧ (optTruthy em = true →
        (updateTaskStatus row status em d now).error_message = em)
    ∧ (optTruthy d.stagingPath = false →
        (updateTaskStatus row status em d now).staging_path = row.staging_path)
    ∧ (optTruthy d.stagingPath = true →
        (updateTaskStatus row status em d now).staging_path = d.stagingPath)
    ∧ (optTruthy d.libraryPath = false →
        (updateTaskStatus row status em d now).library_path = row.library_path)
    ∧ (optTruthy d.libraryPath = true →
        (updateTaskStatus row status em d now).library_path = d.libraryPath)
    ∧ (optTruthy d.sourceUrl = false →
        (updateTaskStatus row status em d now).source_url = row.source_url)
    ∧ (optTruthy d.sourceUrl = true →
        (updateTaskStatus row status em d now).source_url = d.sourceUrl)
    ∧ (optTruthy d.resolvedUrl = false →
        (updateTaskStatus row status em d now).resolved_url = row.resolved_url)
    ∧ (optTruthy d.resolvedUrl = true →
        (updateTaskStatus row status em d now).resolved_url = d.resolvedUrl)
    ∧ (optTruthy d.triedToneFlags = false →
        (updateTaskStatus row status em d now).tried_tone_flags = row.tried_tone_flags)
    ∧ (optTruthy d.triedToneFlags = true →
        (updateTaskStatus row status em d now).tried_tone_flags = d.triedToneFlags)
    ∧ (d.progress = none →
        (updateTaskStatus row status em d now).progress = row.progress)
    ∧ (d.progress.isSome = true →
        (updateTaskStatus row status em d now).progress = d.progress)
    ∧ (d.downloadedBytes = none →
        (updateTaskStatus row status em d now).downloaded_bytes = row.downloaded_bytes)
    ∧ (d.downloadedBytes.isSome = true →
        (updateTaskStatus row status em d now).downloaded_bytes = d.downloadedBytes)
    ∧ (d.totalBytes = none →
        (updateTaskStatus row status em d now).total_bytes = row.total_bytes)
    ∧ (d.totalBytes.isSome = true →
        (updateTaskStatus row status em d now).total_bytes = d.totalBytes)
    ∧ (d.speedBps = none →
        (updateTaskStatus row status em d now).speed_bps = row.speed_bps)
    ∧ (d.speedBps.isSome = true →
        (updateTaskStatus row status em d now).speed_bps = d.speedBps)
    ∧ (d.etaSeconds = none →
        (updateTaskStatus row status em d now).eta_seconds = row.eta_seconds)
    ∧ (d.etaSeconds.isSome = true →
        (updateTaskStatus row status em d now).eta_seconds = d.etaSeconds)
    ∧ (updateTaskStatus row status em d now).title = row.title
    ∧ (updateTaskStatus row status em d now).artist = row.artist
    ∧ (updateTaskStatus row status em d now).created_at = row.created_at := by
  refine ⟨rfl, rfl, ?_, ?_, ?_, ?_, ?_, ?_, ?_, ?_, ?_, ?_, ?_, ?_, ?_, ?_, ?_, ?_,
    ?_, ?_, ?_, ?_, ?_, ?_, rfl, rfl, rfl⟩
  all_goals intro h
  all_goals simp [updateTaskStatus, h]


/-- Witness for C10: an update carrying no error message after a prior
failure leaves the stored message intact, while a zero progress value is
written. -/
theorem updateTaskStatus_frame_witness :
    (updateTaskStatus
        ⟨"failed", 1, some "boom", none, none, none, none, some 55, none, none, none,
          none, none, "t", "a", 0⟩
        "downloading" none
        ⟨none, none, none, none, some 0, none, none, none, none, none⟩ 5).error_message =
      some "boom"
    ∧ (updateTaskStatus
        ⟨"failed", 1, some "boom", none, none, none, none, some 55, none, none, none,
          none, none, "t", "a", 0⟩
        "downloading" none
        ⟨none, none, none, none, some 0, none, none, none, none, none⟩ 5).progress =
      some 0 := by
  obtain ⟨_, _, h3, _, _, _, _, _, _, _, _, _, _, _, _, h16, _⟩ :=
    updateTaskStatus_frame
      ⟨"failed", 1, some "boom", none, none, none, none, some 55, none, none, none,
        none, none, "t", "a", 0⟩
      "downloading" none
      ⟨none, none, none, none, some 0, none, none, none, none, none⟩ 5
  exact ⟨(h3 rfl).trans rfl, (h16 rfl).trans rfl⟩


end Musicn
